/-
Verification of the unwrappy library (src/unwrappy): the Result type and
its eager combinators, the LazyResult deferred pipeline, the batch
combinators sequence/traverse, the tagged JSON codec, and error-context
chaining.

Python is dynamically typed, so the lazy-pipeline machinery and the JSON
codec are embedded over a universe `D` of runtime values in which Ok/Err
cells can nest anywhere (inside lists, dicts, or other Results).  Python
lists and dicts are modelled by the mutually inductive `DItems`/`DFields`
so that all recursion over values is plainly structural.  Operations that
can raise a host exception (AttributeError on a non-Result receiver,
KeyError on a missing dict key, RuntimeError on re-awaiting a coroutine)
return `Option`/`Except`.  The typed combinators (`sequence`, `traverse`,
the unwrap family) are embedded generically over their payload types,
matching the source's type annotations.
-/

import Mathlib

set_option autoImplicit false

namespace Unwrappy

mutual
/-- A dynamic (Python) runtime value: JSON scalars, lists, dicts, and the
Ok/Err Result cells from src/unwrappy/result.py.  `null` is Python `None`.
Dicts are modelled as ordered key/value sequences (a Python dict has
unique keys and preserves insertion order). -/
inductive D where
  | null
  | bool (b : Bool)
  | int (n : Int)
  | str (s : String)
  | list (xs : DItems)
  | dict (kvs : DFields)
  | ok (v : D)
  | err (e : D)

inductive DItems where
  | nil
  | cons (hd : D) (tl : DItems)

inductive DFields where
  | nil
  | cons (key : String) (val : D) (tl : DFields)
end

/-- A value that may or may not be pending: the argument type of
`_maybe_await` (result.py:571-575).  A pending computation is a thunk:
awaiting it runs the computation. -/
inductive MP (α : Type) where
  | now (a : α)
  | pend (t : Unit → α)

/-- `_maybe_await` (result.py:571-575): await if awaitable, otherwise
return as-is.  The single resolve-if-pending primitive. -/
def maybeAwait {α : Type} : MP α → α
  | .now a => a
  | .pend t => t ()

/-- The closed set of deferred operation descriptors
(result.py:533-568).  The type of the stored callable is a parameter `φ`:
the chain methods are polymorphic in it (they only store the function,
never apply it); execution instantiates `φ` with `Fn`. -/
inductive Op (φ : Type) where
  | mapOp (fn : φ)
  | mapErrOp (fn : φ)
  | andThenOp (fn : φ)
  | orElseOp (fn : φ)
  | teeOp (fn : φ)
  | inspectErrOp (fn : φ)
  | flattenOp

/-- A chained function: takes a runtime value, returns a value that may be
pending (sync functions return `.now`, async ones `.pend`). -/
abbrev Fn := D → MP D

/-- `LazyResult._execute_op` (result.py:692-734): execute a single
operation descriptor on an intermediate value.  Every function result is
routed through `maybeAwait`.  `none` models the AttributeError raised when
the intermediate value is not an Ok/Err cell (only reachable if a chained
function returned a non-Result). -/
def executeOp (result : D) : Op Fn → Option D
  | .mapOp fn =>
    match result with
    | D.ok v => some (D.ok (maybeAwait (fn v)))
    | D.err _ => some result
    | _ => none
  | .mapErrOp fn =>
    match result with
    | D.ok _ => some result
    | D.err e => some (D.err (maybeAwait (fn e)))
    | _ => none
  | .andThenOp fn =>
    match result with
    | D.ok v => some (maybeAwait (fn v))
    | D.err _ => some result
    | _ => none
  | .orElseOp fn =>
    match result with
    | D.ok _ => some result
    | D.err e => some (maybeAwait (fn e))
    | _ => none
  | .teeOp fn =>
    match result with
    | D.ok v =>
      let _ := maybeAwait (fn v)
      some result
    | D.err _ => some result
    | _ => none
  | .inspectErrOp fn =>
    match result with
    | D.ok _ => some result
    | D.err e =>
      let _ := maybeAwait (fn e)
      some result
    | _ => none
  | .flattenOp =>
    match result with
    | D.ok v => some v
    | D.err _ => some result
    | _ => none

/-- The operation-queue walk of `LazyResult.collect` (result.py:687-688):
apply the queued descriptors strictly in append order to the resolved
source. -/
def collectOps : D → List (Op Fn) → Option D
  | r, [] => some r
  | r, op :: ops =>
    match executeOp r op with
    | some r2 => collectOps r2 ops
    | none => none

/-- The source of a pipeline (result.py:618): either an already-resolved
Result, or a pending awaitable whose single-shot state lives in the
ambient `CoroCell` (the same coroutine object is shared by every pipeline
value built from it). -/
inductive Source where
  | res (r : D)
  | awaitable

/-- The state of the one awaitable a `Source.awaitable` refers to:
`some t` means not yet awaited (awaiting runs `t`), `none` means already
consumed — a CPython coroutine can be awaited only once, a second await
raises RuntimeError. -/
abbrev CoroCell := Option (Unit → D)

/-- Awaiting the pipeline source (the `_maybe_await(self._source)` on
result.py:685): a concrete Result passes through; a pending awaitable is
run and consumed; an already-consumed awaitable raises (`.error ()`). -/
def awaitSource : Source → CoroCell → Except Unit D × CoroCell
  | .res r, c => (.ok r, c)
  | .awaitable, some t => (.ok (t ()), none)
  | .awaitable, none => (.error (), none)

/-- `LazyResult` (result.py:578-681): an unresolved source plus an ordered
queue of deferred operation descriptors.  Polymorphic in the stored
callable type `φ` (see `Op`). -/
structure LazyResult (φ : Type) where
  source : Source
  operations : List (Op φ)

/-- `LazyResult.from_result` (result.py:634-637). -/
def LazyResult.from_result (φ : Type) (r : D) : LazyResult φ := ⟨Source.res r, []⟩

/-- `LazyResult.from_awaitable` (result.py:639-642). -/
def LazyResult.from_awaitable (φ : Type) : LazyResult φ := ⟨Source.awaitable, []⟩

/-- `LazyResult.map` (result.py:648-650). -/
def LazyResult.map {φ : Type} (p : LazyResult φ) (fn : φ) : LazyResult φ :=
  ⟨p.source, p.operations ++ [Op.mapOp fn]⟩

/-- `LazyResult.map_err` (result.py:652-654). -/
def LazyResult.map_err {φ : Type} (p : LazyResult φ) (fn : φ) : LazyResult φ :=
  ⟨p.source, p.operations ++ [Op.mapErrOp fn]⟩

/-- `LazyResult.and_then` (result.py:656-660). -/
def LazyResult.and_then {φ : Type} (p : LazyResult φ) (fn : φ) : LazyResult φ :=
  ⟨p.source, p.operations ++ [Op.andThenOp fn]⟩

/-- `LazyResult.or_else` (result.py:662-666). -/
def LazyResult.or_else {φ : Type} (p : LazyResult φ) (fn : φ) : LazyResult φ :=
  ⟨p.source, p.operations ++ [Op.orElseOp fn]⟩

/-- `LazyResult.tee` (result.py:668-670). -/
def LazyResult.tee {φ : Type} (p : LazyResult φ) (fn : φ) : LazyResult φ :=
  ⟨p.source, p.operations ++ [Op.teeOp fn]⟩

/-- `LazyResult.inspect_err` (result.py:674-676). -/
def LazyResult.inspect_err {φ : Type} (p : LazyResult φ) (fn : φ) : LazyResult φ :=
  ⟨p.source, p.operations ++ [Op.inspectErrOp fn]⟩

/-- `LazyResult.flatten` (result.py:678-681). -/
def LazyResult.flatten {φ : Type} (p : LazyResult φ) : LazyResult φ :=
  ⟨p.source, p.operations ++ [Op.flattenOp]⟩

/-- `LazyResult.collect` (result.py:683-690): resolve the source, then
walk the operation queue in append order.  Threads the shared coroutine
cell; `.error ()` is the RuntimeError from re-awaiting a consumed
coroutine propagating out of `collect`. -/
def LazyResult.collect (p : LazyResult Fn) (c : CoroCell) :
    Except Unit (Option D) × CoroCell :=
  match awaitSource p.source c with
  | (.ok r, c2) => (.ok (collectOps r p.operations), c2)
  | (.error _, c2) => (.error (), c2)

/-- Eager `Result.map` (result.py:200-217): transform the Ok payload,
rebuild an equal Err otherwise.  Dynamic receiver: a non-Result receiver
is an AttributeError (`none`). -/
def Result.map (fn : D → D) : D → Option D
  | D.ok v => some (D.ok (fn v))
  | D.err e => some (D.err e)
  | _ => none

/-- Eager `Result.map_err` (result.py:249-266). -/
def Result.map_err (fn : D → D) : D → Option D
  | D.ok v => some (D.ok v)
  | D.err e => some (D.err (fn e))
  | _ => none

/-- Eager `Result.and_then` (result.py:268-285): the function's result
replaces the Result entirely. -/
def Result.and_then (fn : D → D) : D → Option D
  | D.ok v => some (fn v)
  | D.err e => some (D.err e)
  | _ => none

/-- Eager `Result.or_else` (result.py:287-304). -/
def Result.or_else (fn : D → D) : D → Option D
  | D.ok v => some (D.ok v)
  | D.err e => some (fn e)
  | _ => none

/-- Eager `Result.tee` (result.py:306-324): call the function on the Ok
payload for its side effect, return self unchanged. -/
def Result.tee (fn : D → D) : D → Option D
  | D.ok v =>
    let _ := fn v
    some (D.ok v)
  | D.err e => some (D.err e)
  | _ => none

/-- Eager `Result.inspect_err` (result.py:328-344). -/
def Result.inspect_err (fn : D → D) : D → Option D
  | D.ok v => some (D.ok v)
  | D.err e =>
    let _ := fn e
    some (D.err e)
  | _ => none

/-- Eager `Result.flatten` (result.py:346-361): `self.unwrap()` if Ok —
the payload is returned whether or not it is itself a Result — and a
rebuilt equal Err otherwise. -/
def Result.flatten : D → Option D
  | D.ok v => some v
  | D.err e => some (D.err e)
  | _ => none

/-- `Result.ok` (result.py:178-187): `self.unwrap() if self.is_ok() else
None`.  Returns the raw payload or Python `None`. -/
def Result.ok : D → Option D
  | D.ok v => some v
  | D.err _ => some D.null
  | _ => none

/-- `Result.err` (result.py:189-198): `self.unwrap_err() if self.is_err()
else None`. -/
def Result.err : D → Option D
  | D.ok _ => some D.null
  | D.err e => some e
  | _ => none

/-- A queue of descriptors whose functions are all synchronous, embedded
as plain `D → D` functions; `liftSync` is the coercion into the executed
form, wrapping each call result as non-pending (`.now`), which is exactly
what a synchronous Python function's return looks like to
`_maybe_await`. -/
def liftSync : Op (D → D) → Op Fn
  | .mapOp fn => .mapOp (fun x => MP.now (fn x))
  | .mapErrOp fn => .mapErrOp (fun x => MP.now (fn x))
  | .andThenOp fn => .andThenOp (fun x => MP.now (fn x))
  | .orElseOp fn => .orElseOp (fun x => MP.now (fn x))
  | .teeOp fn => .teeOp (fun x => MP.now (fn x))
  | .inspectErrOp fn => .inspectErrOp (fun x => MP.now (fn x))
  | .flattenOp => .flattenOp

/-- The eager Result combinator corresponding to one operation
descriptor. -/
def eagerStep (r : D) : Op (D → D) → Option D
  | .mapOp fn => Result.map fn r
  | .mapErrOp fn => Result.map_err fn r
  | .andThenOp fn => Result.and_then fn r
  | .orElseOp fn => Result.or_else fn r
  | .teeOp fn => Result.tee fn r
  | .inspectErrOp fn => Result.inspect_err fn r
  | .flattenOp => Result.flatten r

/-- The fold of the eager Result combinators over a descriptor list, in
the same order. -/
def eagerFold : D → List (Op (D → D)) → Option D
  | r, [] => some r
  | r, op :: ops =>
    match eagerStep r op with
    | some r2 => eagerFold r2 ops
    | none => none

theorem executeOp_liftSync (op : Op (D → D)) (r : D) :
    executeOp r (liftSync op) = eagerStep r op := by
  cases op <;> cases r <;> rfl

theorem collectOps_liftSync (ops : List (Op (D → D))) :
    ∀ r : D, collectOps r (ops.map liftSync) = eagerFold r ops := by
  induction ops with
  | nil => intro r; rfl
  | cons op ops ih =>
    intro r
    simp only [List.map_cons, collectOps, eagerFold, executeOp_liftSync]
    cases eagerStep r op with
    | none => rfl
    | some r2 => exact ih r2

theorem collectOps_append (r : D) (ops : List (Op Fn)) (op : Op Fn) :
    collectOps r (ops ++ [op]) = (collectOps r ops).bind (fun x => executeOp x op) := by
  induction ops generalizing r with
  | nil =>
    simp only [List.nil_append, collectOps, Option.bind]
    cases executeOp r op <;> rfl
  | cons o os ih =>
    simp only [List.cons_append, collectOps]
    cases executeOp r o with
    | none => rfl
    | some r2 => exact ih r2

/-- C1.  A pipeline with an already-resolved Result source and all-sync
queued functions: `collect` resolves the source, then walks the operation
queue strictly in append order through `executeOp` (each function result
passing through the resolve-if-pending primitive `maybeAwait`), and the
final Result equals the fold of the corresponding eager Result
combinators (`map`, `map_err`, `and_then`, `or_else`, `tee`,
`inspect_err`, `flatten`) applied to the source in the same order. -/
theorem collect_sync_refines_eager_fold (r : D) (ops : List (Op (D → D))) (c : CoroCell) :
    LazyResult.collect ⟨Source.res r, ops.map liftSync⟩ c = (.ok (eagerFold r ops), c) := by
  simp only [LazyResult.collect, awaitSource, collectOps_liftSync]

/-- C2.  Every chain method is a pure constructor: it returns a new
pipeline value with the same source and the original operation sequence
with exactly one descriptor appended, for an arbitrary type `φ` of stored
callables — so no supplied function can be invoked and the original
pipeline value is left unchanged.  Consequently a branch's collect is the
original's fold extended by the one appended descriptor, and collecting
the original still yields the pre-branch result (the fold of its own
queue only). -/
theorem chain_methods_append_one_descriptor :
    (∀ (φ : Type) (p : LazyResult φ) (fn : φ),
        p.map fn = ⟨p.source, p.operations ++ [Op.mapOp fn]⟩
      ∧ p.map_err fn = ⟨p.source, p.operations ++ [Op.mapErrOp fn]⟩
      ∧ p.and_then fn = ⟨p.source, p.operations ++ [Op.andThenOp fn]⟩
      ∧ p.or_else fn = ⟨p.source, p.operations ++ [Op.orElseOp fn]⟩
      ∧ p.tee fn = ⟨p.source, p.operations ++ [Op.teeOp fn]⟩
      ∧ p.inspect_err fn = ⟨p.source, p.operations ++ [Op.inspectErrOp fn]⟩
      ∧ p.flatten = ⟨p.source, p.operations ++ [Op.flattenOp]⟩)
  ∧ (∀ (r : D) (ops : List (Op Fn)) (op : Op Fn),
      collectOps r (ops ++ [op]) = (collectOps r ops).bind (fun x => executeOp x op))
  ∧ (∀ (r : D) (ops : List (Op Fn)) (c : CoroCell),
      LazyResult.collect ⟨Source.res r, ops⟩ c = (.ok (collectOps r ops), c)) := by
  refine ⟨fun φ p fn => ⟨rfl, rfl, rfl, rfl, rfl, rfl, rfl⟩, collectOps_append, ?_⟩
  intro r ops c
  rfl

/-- C3 counterexample.  A pipeline built with `from_awaitable` over a
coroutine (the docstring's own usage, result.py:597): the first `collect`
resolves the source and yields `Ok(1)`, but the second `collect` of the
very same pipeline raises the host's coroutine-reuse RuntimeError
(`.error ()`) instead of independently re-resolving the source and
yielding the same final Result — refuting the claim for pending
sources. -/
theorem double_collect_awaitable_source_raises :
    (LazyResult.collect (LazyResult.from_awaitable Fn)
        (some (fun _ => D.ok (D.int 1)))).1 = .ok (some (D.ok (D.int 1)))
  ∧ (LazyResult.collect (LazyResult.from_awaitable Fn)
        ((LazyResult.collect (LazyResult.from_awaitable Fn)
          (some (fun _ => D.ok (D.int 1)))).2)).1 = .error ()
  ∧ (LazyResult.collect (LazyResult.from_awaitable Fn)
        ((LazyResult.collect (LazyResult.from_awaitable Fn)
          (some (fun _ => D.ok (D.int 1)))).2)).1
      ≠ (LazyResult.collect (LazyResult.from_awaitable Fn)
          (some (fun _ => D.ok (D.int 1)))).1 := by
  refine ⟨rfl, rfl, ?_⟩
  simp [LazyResult.collect, LazyResult.from_awaitable, awaitSource]

/-- C3 amended.  For a pipeline whose source is an already-resolved
Result, collect is repeatable and interference-free: each run leaves the
ambient coroutine state untouched and independently replays its own
queue from the source, so collecting the same pipeline twice, or
collecting two pipelines sharing a common prefix in either order, yields
the same results.  For a pending source (`from_awaitable`), the first
collect resolves the awaitable and replays the queue, but the awaitable
is thereby consumed: a second collect (of that pipeline or any
prefix-sharing one over the same awaitable) raises the host's
coroutine-reuse error instead of yielding the same final Result. -/
theorem collect_independent_resolved_source (r : D) (pre ext1 ext2 : List (Op Fn))
    (c : CoroCell) (t : Unit → D) :
    LazyResult.collect ⟨Source.res r, pre ++ ext1⟩ c
      = (.ok (collectOps r (pre ++ ext1)), c)
  ∧ (LazyResult.collect ⟨Source.res r, pre ++ ext2⟩
        ((LazyResult.collect ⟨Source.res r, pre ++ ext1⟩ c).2)).1
      = .ok (collectOps r (pre ++ ext2))
  ∧ LazyResult.collect ⟨Source.res r, pre ++ ext1⟩
        ((LazyResult.collect ⟨Source.res r, pre ++ ext1⟩ c).2)
      = LazyResult.collect ⟨Source.res r, pre ++ ext1⟩ c
  ∧ LazyResult.collect ⟨Source.awaitable, pre⟩ (some t)
      = (.ok (collectOps (t ()) pre), none)
  ∧ (LazyResult.collect ⟨Source.awaitable, pre⟩
        ((LazyResult.collect ⟨Source.awaitable, pre⟩ (some t)).2)).1 = .error () :=
  ⟨rfl, rfl, rfl, rfl, rfl⟩

/-- C4 counterexample.  `flatten` on a success whose payload is not a
Result: both the eager `Result.flatten` (result.py:359-360) and the lazy
`FlattenOp` branch (result.py:729-732) return the raw payload
(`self.unwrap()` with no isinstance check) — `Ok(5).flatten()` is `5`,
not the unchanged `Ok(5)` the claim requires. -/
theorem flatten_unwraps_nonresult_payload :
    Result.flatten (D.ok (D.int 5)) = some (D.int 5)
  ∧ Result.flatten (D.ok (D.int 5)) ≠ some (D.ok (D.int 5))
  ∧ executeOp (D.ok (D.int 5)) Op.flattenOp = some (D.int 5)
  ∧ executeOp (D.ok (D.int 5)) Op.flattenOp ≠ some (D.ok (D.int 5)) := by
  refine ⟨rfl, ?_, rfl, ?_⟩ <;> simp [Result.flatten, executeOp]

/-- C4 amended.  `flatten` (eager and lazy alike) replaces a success by
its payload unconditionally — which removes exactly one level of nesting
when the payload is itself a Result, so `Ok(Ok(Ok(5))).flatten()` is
`Ok(Ok(5))`, not `Ok(5)` — and leaves a failure unchanged; but a success
holding a non-Result payload becomes that raw payload rather than being
left unchanged. -/
theorem flatten_returns_payload_on_success (v e : D) :
    Result.flatten (D.ok v) = some v
  ∧ Result.flatten (D.err e) = some (D.err e)
  ∧ executeOp (D.ok v) Op.flattenOp = some v
  ∧ executeOp (D.err e) Op.flattenOp = some (D.err e)
  ∧ Result.flatten (D.ok (D.ok (D.ok (D.int 5)))) = some (D.ok (D.ok (D.int 5))) :=
  ⟨rfl, rfl, rfl, rfl, rfl⟩

/-- C5 (code bug).  `Result.ok()` on `Ok(None)` returns Python `None` —
the very same value it returns for any `Err` — so a success holding a
null-like payload is collapsed into absence, contradicting the spec and
the repository's own test (tests/test_result.py:182, which expects
`Some(None)`). -/
theorem ok_collapses_null_payload :
    Result.ok (D.ok D.null) = some D.null
  ∧ Result.ok (D.err (D.str "boom")) = some D.null
  ∧ Result.ok (D.ok D.null) = Result.ok (D.err (D.str "boom")) :=
  ⟨rfl, rfl, rfl⟩

/-- The typed view of `Result[T, E]` used by the statically typed parts of
result.py (`sequence`, `traverse`, the unwrap family): exactly one of Ok
holding a success value or Err holding an error value. -/
inductive Res (α ε : Type) where
  | ok (v : α)
  | err (e : ε)
deriving DecidableEq

/-- `Result.is_ok` (result.py:488-489, 523-524) as a tag check. -/
def Res.is_ok {α ε : Type} : Res α ε → Bool
  | .ok _ => true
  | .err _ => false

/-- The loop body of `sequence` (result.py:757-762): walk the remaining
items in order carrying the success values accumulated so far (the
Python loop appends; the accumulator here is kept reversed and restored
at the end). -/
def sequenceGo {α ε : Type} (values : List α) : List (Res α ε) → Res (List α) ε
  | [] => .ok values.reverse
  | .err e :: _ => .err e
  | .ok v :: rs => sequenceGo (v :: values) rs

/-- `sequence` (result.py:737-762): collect an iterable of Results into a
Result of list, failing fast on the first Err. -/
def sequence {α ε : Type} (results : List (Res α ε)) : Res (List α) ε :=
  sequenceGo [] results

/-- The loop of `sequence` over a lazily produced iterable: each item is
a thunk forced only when the loop reaches it.  Returns the result
together with the number of items actually produced, to state the
fail-fast guarantee (items after the first Err are never evaluated). -/
def sequenceLazyGo {α ε : Type} (values : List α) (produced : Nat) :
    List (Unit → Res α ε) → Res (List α) ε × Nat
  | [] => (.ok values.reverse, produced)
  | t :: ts =>
    match t () with
    | .err e => (.err e, produced + 1)
    | .ok v => sequenceLazyGo (v :: values) (produced + 1) ts

/-- `sequence` fed by a lazily produced iterable, instrumented with the
count of items produced. -/
def sequenceLazy {α ε : Type} (ts : List (Unit → Res α ε)) : Res (List α) ε × Nat :=
  sequenceLazyGo [] 0 ts

/-- `traverse` (result.py:765-789): `sequence(fn(item) for item in
items)`. -/
def traverse {α β ε : Type} (items : List β) (fn : β → Res α ε) : Res (List α) ε :=
  sequence (items.map fn)

/-- `traverse`'s generator argument evaluated lazily: `fn` is applied to
an item only when `sequence`'s loop pulls it.  The count is the number of
`fn` invocations. -/
def traverseLazy {α β ε : Type} (items : List β) (fn : β → Res α ε) :
    Res (List α) ε × Nat :=
  sequenceLazy (items.map (fun i => fun _ => fn i))

theorem sequenceGo_map_ok {α ε : Type} (vs : List α) :
    ∀ acc : List α, sequenceGo (ε := ε) acc (vs.map Res.ok) = Res.ok (acc.reverse ++ vs) := by
  induction vs with
  | nil => intro acc; simp [sequenceGo]
  | cons v vs ih =>
    intro acc
    simp only [List.map_cons, sequenceGo, ih, List.reverse_cons, List.append_assoc,
      List.singleton_append]

theorem sequenceGo_first_err {α ε : Type} (e : ε) (rest : List (Res α ε)) :
    ∀ (rs : List (Res α ε)) (acc : List α), (∀ r ∈ rs, r.is_ok = true) →
      sequenceGo acc (rs ++ Res.err e :: rest) = Res.err e := by
  intro rs
  induction rs with
  | nil => intro acc _; rfl
  | cons r rs ih =>
    intro acc h
    match r with
    | .ok v => exact ih (v :: acc) (fun x hx => h x (List.mem_cons_of_mem _ hx))
    | .err e2 => exact absurd (h (.err e2) (List.mem_cons_self _ _)) (by simp [Res.is_ok])

theorem sequenceLazyGo_fst {α ε : Type} :
    ∀ (ts : List (Unit → Res α ε)) (acc : List α) (k : Nat),
      (sequenceLazyGo acc k ts).1 = sequenceGo acc (ts.map (fun t => t ())) := by
  intro ts
  induction ts with
  | nil => intro acc k; rfl
  | cons t ts ih =>
    intro acc k
    simp only [sequenceLazyGo, List.map_cons, sequenceGo]
    cases t () with
    | ok v => simpa [sequenceGo] using ih (v :: acc) (k + 1)
    | err e => rfl

theorem sequenceLazyGo_first_err {α ε : Type} (badT : Unit → Res α ε) (e : ε)
    (hbad : badT () = Res.err e) (rest : List (Unit → Res α ε)) :
    ∀ (ts : List (Unit → Res α ε)) (acc : List α) (k : Nat),
      (∀ t ∈ ts, (t ()).is_ok = true) →
      sequenceLazyGo acc k (ts ++ badT :: rest) = (Res.err e, k + ts.length + 1) := by
  intro ts
  induction ts with
  | nil =>
    intro acc k _
    simp [sequenceLazyGo, hbad]
  | cons t ts ih =>
    intro acc k h
    have ht : (t ()).is_ok = true := h t (List.mem_cons_self _ _)
    match hr : t () with
    | .err e2 => rw [hr] at ht; simp [Res.is_ok] at ht
    | .ok v =>
      simp only [List.cons_append, sequenceLazyGo, hr]
      have hrec := ih (v :: acc) (k + 1) (fun x hx => h x (List.mem_cons_of_mem _ hx))
      rw [show ts.append (badT :: rest) = ts ++ badT :: rest from rfl, hrec]
      simp only [List.length_cons]
      congr 1
      omega

/-- C6.  `sequence` walks its input once in order: the first Err
encountered is returned exactly, an empty input yields Ok of an empty
list, and an all-Ok input yields Ok of the success values in the
original order; fed by a lazily produced iterable, exactly the items up
to and including the first Err are produced, never the later ones; and
`traverse items fn` equals `sequence` over `fn` mapped across the items,
with `fn` never invoked on items after the first failure. -/
theorem sequence_traverse_fail_fast :
    (sequence ([] : List (Res Nat String)) = Res.ok [])
  ∧ (sequence [Res.ok 1, Res.err "e1", Res.err "e2"] = Res.err "e1")
  ∧ (sequence ([Res.ok 1, Res.ok 2, Res.ok 3] : List (Res Nat String)) = Res.ok [1, 2, 3])
  ∧ (∀ (α ε : Type) (vs : List α),
      sequence (ε := ε) (vs.map Res.ok) = Res.ok vs)
  ∧ (∀ (α ε : Type) (vs : List α) (e : ε) (rest : List (Res α ε)),
      sequence (vs.map Res.ok ++ Res.err e :: rest) = Res.err e)
  ∧ (∀ (α ε : Type) (ts : List (Unit → Res α ε)),
      (sequenceLazy ts).1 = sequence (ts.map (fun t => t ())))
  ∧ (∀ (α ε : Type) (vs : List α) (e : ε) (rest : List (Unit → Res α ε)),
      sequenceLazy (vs.map (fun v => fun _ => Res.ok v) ++ (fun _ => Res.err e) :: rest)
        = (Res.err e, vs.length + 1))
  ∧ (∀ (α β ε : Type) (items : List β) (fn : β → Res α ε),
      traverse items fn = sequence (items.map fn)
    ∧ (traverseLazy items fn).1 = traverse items fn)
  ∧ (∀ (α β ε : Type) (pre post : List β) (x : β) (fn : β → Res α ε) (e : ε),
      (∀ b ∈ pre, (fn b).is_ok = true) → fn x = Res.err e →
      (traverseLazy (pre ++ x :: post) fn).2 = pre.length + 1
    ∧ (traverseLazy (pre ++ x :: post) fn).1 = Res.err e) := by
  refine ⟨rfl, rfl, rfl, ?_, ?_, ?_, ?_, ?_, ?_⟩
  · intro α ε vs
    simpa using sequenceGo_map_ok vs []
  · intro α ε vs e rest
    exact sequenceGo_first_err e rest (vs.map Res.ok) []
      (by intro r hr; rcases List.mem_map.1 hr with ⟨v, _, rfl⟩; rfl)
  · intro α ε ts
    exact sequenceLazyGo_fst ts [] 0
  · intro α ε vs e rest
    have h := sequenceLazyGo_first_err (fun _ => Res.err e) e rfl rest
      (vs.map (fun v => fun _ => Res.ok v)) [] 0
      (by intro t ht; rcases List.mem_map.1 ht with ⟨v, _, rfl⟩; rfl)
    simpa using h
  · intro α β ε items fn
    refine ⟨rfl, ?_⟩
    rw [show (traverseLazy items fn).1
        = sequenceGo [] ((items.map (fun i => fun _ => fn i)).map (fun t => t ()))
      from sequenceLazyGo_fst _ [] 0]
    rw [List.map_map]
    rfl
  · intro α β ε pre post x fn e h1 h2
    have h := sequenceLazyGo_first_err (fun _ => fn x) e h2
      (post.map (fun i => fun _ => fn i)) (pre.map (fun i => fun _ => fn i)) [] 0
      (by intro t ht; rcases List.mem_map.1 ht with ⟨b, hb, rfl⟩; exact h1 b hb)
    constructor
    · show (sequenceLazy ((pre ++ x :: post).map (fun i => fun _ => fn i))).2 = pre.length + 1
      rw [List.map_append, List.map_cons] at *
      rw [show sequenceLazy
            (pre.map (fun i => fun _ => fn i)
              ++ (fun _ => fn x) :: post.map (fun i => fun _ => fn i))
          = (Res.err e, 0 + (pre.map (fun i => fun _ => fn i)).length + 1) from h]
      simp
    · show (sequenceLazy ((pre ++ x :: post).map (fun i => fun _ => fn i))).1 = Res.err e
      rw [List.map_append, List.map_cons]
      rw [show sequenceLazy
            (pre.map (fun i => fun _ => fn i)
              ++ (fun _ => fn x) :: post.map (fun i => fun _ => fn i))
          = (Res.err e, 0 + (pre.map (fun i => fun _ => fn i)).length + 1) from h]

/-- C6 witness: the fail-fast conjunct applied at a concrete lazily
traversed input — `fn` fails on the third item and is invoked exactly
three times, never on the fourth. -/
theorem sequence_traverse_fail_fast_witness :
    (traverseLazy ([0, 1] ++ 5 :: [7]) (fun i => if i < 3 then Res.ok i else Res.err "e")).2 = 3
  ∧ (traverseLazy ([0, 1] ++ 5 :: [7]) (fun i => if i < 3 then Res.ok i else Res.err "e")).1
      = Res.err "e" := by
  have h := sequence_traverse_fail_fast.2.2.2.2.2.2.2.2 Nat Nat String [0, 1] [7] 5
    (fun i => if i < 3 then Res.ok i else Res.err "e") "e" (by decide) (by decide)
  exact ⟨h.1, h.2⟩

/-- `UnwrapError` (src/unwrappy/exceptions.py:1-6): the distinguished
unwrap-error kind, carrying a message and the mismatched payload as
context (`self.value`). -/
structure UnwrapError (ω : Type) where
  message : String
  value : ω
deriving DecidableEq

/-- `Ok.unwrap` / `Err.unwrap` (result.py:491-492, 526-527): the payload
on Ok, or an `UnwrapError` carrying the Err payload. -/
def Res.unwrap {α ε : Type} : Res α ε → Except (UnwrapError ε) α
  | .ok v => .ok v
  | .err e => .error ⟨"Called unwrap on Err", e⟩

/-- `Ok.unwrap_err` / `Err.unwrap_err` (result.py:494-495, 529-530):
symmetric, raising on Ok with the Ok payload as context. -/
def Res.unwrap_err {α ε : Type} : Res α ε → Except (UnwrapError α) ε
  | .ok v => .error ⟨"Called unwrap_err on Ok", v⟩
  | .err e => .ok e

/-- `Result.expect` (result.py:91-107): like unwrap, but the raised
error's message is the caller-supplied `msg` followed by the repr of the
Err payload.  Python's dynamic `repr` of the payload is passed in
explicitly. -/
def Res.expect {α ε : Type} (reprE : ε → String) (msg : String) :
    Res α ε → Except (UnwrapError ε) α
  | .ok v => .ok v
  | .err e => .error ⟨msg ++ ": " ++ reprE e, e⟩

/-- `Result.expect_err` (result.py:109-124). -/
def Res.expect_err {α ε : Type} (reprA : α → String) (msg : String) :
    Res α ε → Except (UnwrapError α) ε
  | .ok v => .error ⟨msg ++ ": " ++ reprA v, v⟩
  | .err e => .ok e

/-- C7.  `unwrap` returns the payload on Ok and raises `UnwrapError`
carrying the Err payload as context on Err; `unwrap_err` is symmetric;
`expect`/`expect_err` behave identically except that the raised error's
message starts with the caller-supplied message (it is `msg` followed by
": " and the repr of the mismatched payload).  The equations cover both
variants of every method, so no other behavior occurs. -/
theorem unwrap_expect_family_spec (α ε : Type) (v : α) (e : ε)
    (rE : ε → String) (rA : α → String) (msg : String) :
    Res.unwrap (Res.ok v : Res α ε) = .ok v
  ∧ Res.unwrap (Res.err e : Res α ε) = .error ⟨"Called unwrap on Err", e⟩
  ∧ Res.unwrap_err (Res.ok v : Res α ε) = .error ⟨"Called unwrap_err on Ok", v⟩
  ∧ Res.unwrap_err (Res.err e : Res α ε) = .ok e
  ∧ Res.expect rE msg (Res.ok v : Res α ε) = .ok v
  ∧ Res.expect rE msg (Res.err e : Res α ε) = .error ⟨msg ++ ": " ++ rE e, e⟩
  ∧ (∃ rest, msg ++ ": " ++ rE e = msg ++ rest)
  ∧ Res.expect_err rA msg (Res.ok v : Res α ε) = .error ⟨msg ++ ": " ++ rA v, v⟩
  ∧ Res.expect_err rA msg (Res.err e : Res α ε) = .ok e :=
  ⟨rfl, rfl, rfl, rfl, rfl, rfl,
    ⟨": " ++ rE e, by rw [String.append_assoc]⟩, rfl, rfl⟩

/-- Modelled from the spec: `ChainedError` is exported by
src/unwrappy/__init__.py:3 and exercised by tests/test_result.py, but its
class (in unwrappy/exceptions.py) and the `Result.context` method are
absent from src/.  Per spec §4.5/§3 it is an immutable cons-list-like
structure: a textual context label plus an inner error that is either the
original non-chained payload (`base`) or another ChainedError
(`wrap`). -/
inductive ChainedError where
  | base (label : String) (cause : String)
  | wrap (label : String) (inner : ChainedError)
deriving DecidableEq

/-- Modelled from the spec (§4.5): `root_cause()` walks to the end of the
chain and returns the original non-chained payload. -/
def ChainedError.root_cause : ChainedError → String
  | .base _ cause => cause
  | .wrap _ inner => inner.root_cause

/-- Modelled from the spec (§4.5): `chain()` returns the context labels
outermost-to-innermost as an ordered sequence. -/
def ChainedError.chain : ChainedError → List String
  | .base label _ => [label]
  | .wrap label inner => label :: inner.chain

/-- Modelled from the spec (§4.5): string rendering joins labels and root
cause with the fixed separator ": ", outermost first. -/
def ChainedError.render : ChainedError → String
  | .base label cause => label ++ ": " ++ cause
  | .wrap label inner => label ++ ": " ++ inner.render

/-- An error payload as `context` sees it: either a plain (non-chained)
error value or an already-built ChainedError. -/
inductive EPayload where
  | plain (s : String)
  | chained (c : ChainedError)
deriving DecidableEq

/-- Modelled from the spec (§4.5): `context(label)` on an Err wraps the
existing error payload — whatever it is — inside a ChainedError whose
outer label is `label` and whose inner reference is the previous payload;
no-op on Ok. -/
def Res.context {α : Type} (r : Res α EPayload) (label : String) : Res α EPayload :=
  match r with
  | .ok v => .ok v
  | .err (.plain s) => .err (.chained (.base label s))
  | .err (.chained c) => .err (.chained (.wrap label c))

/-- C9.  `Err("root").context("level1").context("level2")` builds a
ChainedError stack with the most recent label outermost; it renders as
"level2: level1: root" (labels and root cause joined by ": ", outermost
first), its `root_cause()` is "root", and its `chain()` is the ordered
label list ["level2", "level1"]. -/
theorem context_chain_spec :
    ((Res.err (EPayload.plain "root") : Res Nat EPayload).context "level1").context "level2"
      = Res.err (.chained (.wrap "level2" (.base "level1" "root")))
  ∧ (ChainedError.wrap "level2" (.base "level1" "root")).render = "level2: level1: root"
  ∧ (ChainedError.wrap "level2" (.base "level1" "root")).root_cause = "root"
  ∧ (ChainedError.wrap "level2" (.base "level1" "root")).chain = ["level2", "level1"] :=
  ⟨rfl, rfl, rfl, rfl⟩

mutual
/-- A plain JSON value, the wire side of the codec
(src/unwrappy/serde.py): what `json.dumps` emits and `json.loads`
parses. -/
inductive J where
  | null
  | bool (b : Bool)
  | int (n : Int)
  | str (s : String)
  | arr (xs : JItems)
  | obj (kvs : JFields)

inductive JItems where
  | nil
  | cons (hd : J) (tl : JItems)

inductive JFields where
  | nil
  | cons (key : String) (val : J) (tl : JFields)
end

/-- `_TYPE_KEY` (serde.py:38): the discriminator key of the tagged
format. -/
def typeKey : String := "__unwrappy_type__"

mutual
/-- `dumps` (serde.py:131-149): `json.dumps` with `ResultEncoder`
(serde.py:41-79).  Scalars, lists and dicts serialize natively; an Ok or
Err anywhere in the tree goes through `ResultEncoder.default`, producing
the tagged object with the discriminator first and the payload field
("value" for Ok, "error" for Err) second, the payload serialized
recursively. -/
def encodeD : D → J
  | D.null => J.null
  | D.bool b => J.bool b
  | D.int n => J.int n
  | D.str s => J.str s
  | D.list xs => J.arr (encodeItems xs)
  | D.dict kvs => J.obj (encodeFields kvs)
  | D.ok v => J.obj (JFields.cons typeKey (J.str "Ok")
      (JFields.cons "value" (encodeD v) JFields.nil))
  | D.err e => J.obj (JFields.cons typeKey (J.str "Err")
      (JFields.cons "error" (encodeD e) JFields.nil))

def encodeItems : DItems → JItems
  | DItems.nil => JItems.nil
  | DItems.cons x xs => JItems.cons (encodeD x) (encodeItems xs)

def encodeFields : DFields → JFields
  | DFields.nil => JFields.nil
  | DFields.cons k v kvs => JFields.cons k (encodeD v) (encodeFields kvs)
end

/-- Python `dct[key]` / `key in dct` on a decoded JSON object: first
match in the key/value sequence (a dict parsed from JSON has unique
keys). -/
def lookupKey (k : String) : DFields → Option D
  | DFields.nil => none
  | DFields.cons k2 v rest => if k2 = k then some v else lookupKey k rest

/-- The error channel of decoding: the native KeyError raised by
`dct["value"]` / `dct["error"]` in `result_decoder`. -/
inductive DecodeErr where
  | keyError (key : String)
deriving DecidableEq

/-- `result_decoder` (serde.py:82-110): the `object_hook` applied to
every parsed JSON object (whose values have already been decoded).  No
discriminator key: the dict passes through unchanged.  Discriminator
equal to the string "Ok"/"Err": the corresponding payload key is
accessed with `dct[...]`, raising KeyError if absent.  Any other
discriminator value (including non-strings): the dict passes through
unchanged. -/
def result_decoder (dct : DFields) : Except DecodeErr D :=
  match lookupKey typeKey dct with
  | none => .ok (D.dict dct)
  | some (D.str s) =>
    if s = "Ok" then
      match lookupKey "value" dct with
      | some v => .ok (D.ok v)
      | none => .error (.keyError "value")
    else if s = "Err" then
      match lookupKey "error" dct with
      | some e => .ok (D.err e)
      | none => .error (.keyError "error")
    else .ok (D.dict dct)
  | some _ => .ok (D.dict dct)

mutual
/-- `loads` (serde.py:152-169): `json.loads` with
`object_hook=result_decoder`.  Parsing is bottom-up: array elements and
object values are decoded first, then `result_decoder` runs on each
object. -/
def decodeJ : J → Except DecodeErr D
  | J.null => .ok D.null
  | J.bool b => .ok (D.bool b)
  | J.int n => .ok (D.int n)
  | J.str s => .ok (D.str s)
  | J.arr xs =>
    match decodeItems xs with
    | .ok ds => .ok (D.list ds)
    | .error e => .error e
  | J.obj kvs =>
    match decodeFields kvs with
    | .ok ds => result_decoder ds
    | .error e => .error e

def decodeItems : JItems → Except DecodeErr DItems
  | JItems.nil => .ok DItems.nil
  | JItems.cons x xs =>
    match decodeJ x with
    | .error e => .error e
    | .ok d =>
      match decodeItems xs with
      | .error e => .error e
      | .ok ds => .ok (DItems.cons d ds)

def decodeFields : JFields → Except DecodeErr DFields
  | JFields.nil => .ok DFields.nil
  | JFields.cons k v kvs =>
    match decodeJ v with
    | .error e => .error e
    | .ok d =>
      match decodeFields kvs with
      | .error e => .error e
      | .ok ds => .ok (DFields.cons k d ds)
end

mutual
/-- A value none of whose dict nodes contains the discriminator key: the
domain on which the tagged codec round-trips. -/
def noTypeKeyD : D → Bool
  | D.null => true
  | D.bool _ => true
  | D.int _ => true
  | D.str _ => true
  | D.list xs => noTypeKeyItems xs
  | D.dict kvs => (lookupKey typeKey kvs).isNone && noTypeKeyFields kvs
  | D.ok v => noTypeKeyD v
  | D.err e => noTypeKeyD e

def noTypeKeyItems : DItems → Bool
  | DItems.nil => true
  | DItems.cons x xs => noTypeKeyD x && noTypeKeyItems xs

def noTypeKeyFields : DFields → Bool
  | DFields.nil => true
  | DFields.cons _ v kvs => noTypeKeyD v && noTypeKeyFields kvs
end

mutual
theorem decode_encode_d : ∀ (d : D), noTypeKeyD d = true → decodeJ (encodeD d) = .ok d
  | D.null, _ => rfl
  | D.bool _, _ => rfl
  | D.int _, _ => rfl
  | D.str _, _ => rfl
  | D.list xs, h => by
    have ih := decode_encode_items xs (by simpa [noTypeKeyD] using h)
    simp only [encodeD, decodeJ, ih]
  | D.dict kvs, h => by
    have h1 : (lookupKey typeKey kvs).isNone = true := by
      simp only [noTypeKeyD, Bool.and_eq_true] at h
      exact h.1
    have h2 : noTypeKeyFields kvs = true := by
      simp only [noTypeKeyD, Bool.and_eq_true] at h
      exact h.2
    have ih := decode_encode_fields kvs h2
    simp only [encodeD, decodeJ, ih, result_decoder, Option.isNone_iff_eq_none.mp h1]
  | D.ok v, h => by
    have ih := decode_encode_d v (by simpa [noTypeKeyD] using h)
    simp only [encodeD, decodeJ, decodeFields, ih]
    rfl
  | D.err e, h => by
    have ih := decode_encode_d e (by simpa [noTypeKeyD] using h)
    simp only [encodeD, decodeJ, decodeFields, ih]
    rfl

theorem decode_encode_items :
    ∀ (xs : DItems), noTypeKeyItems xs = true → decodeItems (encodeItems xs) = .ok xs
  | DItems.nil, _ => rfl
  | DItems.cons x xs, h => by
    simp only [noTypeKeyItems, Bool.and_eq_true] at h
    have ih1 := decode_encode_d x h.1
    have ih2 := decode_encode_items xs h.2
    simp only [encodeItems, decodeItems, ih1, ih2]

theorem decode_encode_fields :
    ∀ (kvs : DFields), noTypeKeyFields kvs = true → decodeFields (encodeFields kvs) = .ok kvs
  | DFields.nil, _ => rfl
  | DFields.cons k v kvs, h => by
    simp only [noTypeKeyFields, Bool.and_eq_true] at h
    have ih1 := decode_encode_d v h.1
    have ih2 := decode_encode_fields kvs h.2
    simp only [encodeFields, decodeFields, ih1, ih2]
end

/-- C8 counterexample.  A success whose (JSON-serializable) dict payload
itself contains the discriminator key: `Ok({"__unwrappy_type__": "Ok",
"value": 42})` encodes to a perfectly ordinary tagged object, but
decoding yields `Ok(Ok(42))` — the payload dict was mistaken for an
encoded Result — which is not structurally equal to the original
value.  The round-trip claim fails as stated. -/
theorem roundtrip_fails_on_discriminator_payload :
    decodeJ (encodeD (D.ok (D.dict (DFields.cons typeKey (D.str "Ok")
        (DFields.cons "value" (D.int 42) DFields.nil)))))
      = .ok (D.ok (D.ok (D.int 42)))
  ∧ decodeJ (encodeD (D.ok (D.dict (DFields.cons typeKey (D.str "Ok")
        (DFields.cons "value" (D.int 42) DFields.nil)))))
      ≠ .ok (D.ok (D.dict (DFields.cons typeKey (D.str "Ok")
          (DFields.cons "value" (D.int 42) DFields.nil)))) := by
  refine ⟨rfl, ?_⟩
  intro hEq
  rw [show decodeJ (encodeD (D.ok (D.dict (DFields.cons typeKey (D.str "Ok")
        (DFields.cons "value" (D.int 42) DFields.nil)))))
      = .ok (D.ok (D.ok (D.int 42))) from rfl] at hEq
  simp at hEq

/-- C8 amended.  For every Result value built from Ok/Err with
JSON-serializable payloads in which no dict node contains the
discriminator key "__unwrappy_type__", decoding the encoding yields the
original value back, including nested Result-in-Result and null-valued
payloads; a payload dict that does contain the discriminator key is
re-interpreted as a tagged Result on decode and breaks the
round-trip. -/
theorem roundtrip_of_tagfree_values (d : D) (h : noTypeKeyD d = true) :
    decodeJ (encodeD d) = .ok d :=
  decode_encode_d d h

/-- C8 witness: `Ok(null)` round-trips to `Ok(null)` — the null payload
is preserved, distinct from any absence encoding; so does a nested
`Ok(Err(Ok(null)))`. -/
theorem roundtrip_of_tagfree_values_witness :
    decodeJ (encodeD (D.ok D.null)) = .ok (D.ok D.null)
  ∧ decodeJ (encodeD (D.ok (D.err (D.ok D.null)))) = .ok (D.ok (D.err (D.ok D.null))) :=
  ⟨roundtrip_of_tagfree_values (D.ok D.null) rfl,
    roundtrip_of_tagfree_values (D.ok (D.err (D.ok D.null))) rfl⟩

/-- C10.  A JSON object carrying the discriminator key with value "Ok"
but no "value" key (or "Err" but no "error" key) makes `result_decoder`
raise a native KeyError — a host-native, untagged failure channel at the
decoding boundary — whereas an unrecognized discriminator makes the dict
pass through unchanged. -/
theorem decoder_keyerror_on_missing_payload (dct : DFields) :
    (lookupKey typeKey dct = some (D.str "Ok") → lookupKey "value" dct = none →
      result_decoder dct = .error (.keyError "value"))
  ∧ (lookupKey typeKey dct = some (D.str "Err") → lookupKey "error" dct = none →
      result_decoder dct = .error (.keyError "error"))
  ∧ (∀ s : String, s ≠ "Ok" → s ≠ "Err" → lookupKey typeKey dct = some (D.str s) →
      result_decoder dct = .ok (D.dict dct)) := by
  refine ⟨?_, ?_, ?_⟩
  · intro h1 h2
    simp [result_decoder, h1, h2]
  · intro h1 h2
    simp [result_decoder, h1, h2]
  · intro s hs1 hs2 h1
    simp [result_decoder, h1, hs1, hs2]

/-- C10 witness: the decoder applied to the two malformed objects and to
one with an unrecognized discriminator. -/
theorem decoder_keyerror_on_missing_payload_witness :
    result_decoder (DFields.cons typeKey (D.str "Ok") DFields.nil)
      = .error (.keyError "value")
  ∧ result_decoder (DFields.cons typeKey (D.str "Err") DFields.nil)
      = .error (.keyError "error")
  ∧ result_decoder (DFields.cons typeKey (D.str "Wat") DFields.nil)
      = .ok (D.dict (DFields.cons typeKey (D.str "Wat") DFields.nil)) :=
  ⟨(decoder_keyerror_on_missing_payload (DFields.cons typeKey (D.str "Ok") DFields.nil)).1
      rfl rfl,
    (decoder_keyerror_on_missing_payload (DFields.cons typeKey (D.str "Err") DFields.nil)).2.1
      rfl rfl,
    (decoder_keyerror_on_missing_payload (DFields.cons typeKey (D.str "Wat") DFields.nil)).2.2
      "Wat" (by decide) (by decide) rfl⟩

end Unwrappy
